import Mathlib

/-!
Shallow embedding of the TerminaX remote session engine: the connection
manager's per-host aggregate state, the broadcast dispatcher, the SSH
pseudo-terminal's error handling, teardown and close semantics, the health
check manager, and the workspace session output buffer.  Each definition is
translated from the TypeScript source file and line range named in its doc
comment.  Strings that the code manipulates character by character are
modelled as `List Char`; JS `Map`/`Set` objects are modelled as
insertion-ordered association lists; `Date` values as `Nat` timestamps.
-/

namespace TerminaX

/-- Connection status for SSH hosts (src/models/SSHHost.ts, enum ConnectionStatus). -/
inductive ConnectionStatus where
  | disconnected
  | connected
  | error
deriving DecidableEq, Repr

/-- Backend health status for a host (src/models/HealthState.ts, enum HostHealthStatus). -/
inductive HostHealthStatus where
  | unknown
  | checking
  | healthy
  | unhealthy
deriving DecidableEq, Repr

/-- `Map.get`: first binding for the key in an insertion-ordered association list. -/
def mapGet {α : Type} (m : List (String × α)) (k : String) : Option α :=
  (m.find? (fun p => p.1 == k)).map (·.2)

/-- `Map.set`: replace an existing binding in place, otherwise append. -/
def mapSet {α : Type} : List (String × α) → String → α → List (String × α)
  | [], k, v => [(k, v)]
  | p :: rest, k, v => if p.1 == k then (k, v) :: rest else p :: mapSet rest k v

/-- `Map.delete`: drop the binding for the key. -/
def mapDel {α : Type} (m : List (String × α)) (k : String) : List (String × α) :=
  m.filter (fun p => !(p.1 == k))

/-- Connection state entry for a host (src/models/SSHHost.ts, interface ConnectionState). -/
structure ConnectionState where
  hostId : String
  status : ConnectionStatus
  terminalId : Option String
  connectedAt : Option Nat
  disconnectedAt : Option Nat
  lastError : Option (List Char)
  exitCode : Option Nat
deriving DecidableEq, Repr

/-- Metadata argument of `ConnectionStateTracker.updateState`.  `terminalId = some none`
models an explicit `null` field, `terminalId = none` models an absent field. -/
structure UpdateMeta where
  terminalId : Option (Option String)
  exitCode : Option Nat
  error : Option (List Char)
deriving DecidableEq, Repr

/-- `ConnectionStateTracker.updateState` (src/models/SSHHost.ts lines 220-242).
`now` models `new Date()`.  The JS `existing?.terminalId || null` maps an empty-string
terminal id to `null`, which the `prevTid` computation reproduces. -/
def updateState (states : List (String × ConnectionState)) (hostId : String)
    (status : ConnectionStatus) (metadata : Option UpdateMeta) (now : Nat) :
    List (String × ConnectionState) :=
  let existing := mapGet states hostId
  let prevTid : Option String :=
    match existing with
    | none => none
    | some st => if st.terminalId = some ("") then none else st.terminalId
  let state : ConnectionState :=
    { hostId := hostId
      status := status
      terminalId := (metadata.bind (·.terminalId)).getD prevTid
      connectedAt := if status = .connected then some now else existing.bind (·.connectedAt)
      disconnectedAt := if status = .connected then none else some now
      lastError := metadata.bind (·.error)
      exitCode := metadata.bind (·.exitCode) }
  mapSet states hostId state

/-- Observer notifications the connection manager emits: a tree-data refresh carrying an
optional tree element (`none` element = refresh of the entire tree) and the void
`onDidChangeSessions` event, which carries no host id. -/
inductive Notification where
  | treeData (element : Option String)
  | sessionsChanged
deriving DecidableEq, Repr

/-- Transport-handle state of an `SSHPseudoTerminal`
(src/providers/TerminalWorkspaceViewProvider.ts lines 1574-1590): whether the SSH shell
stream is non-null, the spawned external process (`some ec` = process present with
`exitCode = ec`, where `ec = none` while it is still running), and the cleanup flag. -/
structure PtyState where
  stream : Bool
  nativeProcess : Option (Option Nat)
  isCleanedUp : Bool
deriving DecidableEq, Repr

/-- `SSHPseudoTerminal.isStreamActive` (TerminalWorkspaceViewProvider.ts lines 1633-1641). -/
def isStreamActive (p : PtyState) : Bool :=
  if p.stream && !p.isCleanedUp then true
  else
    match p.nativeProcess with
    | none => false
    | some ec => ec.isNone && !p.isCleanedUp

/-- One tracked terminal (src/managers/TerminalManager.ts, interface TerminalInfo),
restricted to the fields the broadcast path reads. -/
structure TerminalInfo where
  terminalId : String
  hostId : String
  pty : PtyState
deriving DecidableEq, Repr

/-- State of `ConnectionManager` (src/models/HealthState.ts lines 428-447) together with
the `TerminalManager` maps it owns (src/managers/TerminalManager.ts lines 28-29). -/
structure ConnMgrState where
  terminalsByHost : List (String × List String)
  terminals : List (String × TerminalInfo)
  terminalStatuses : List (String × ConnectionStatus)
  hostLastError : List (String × List Char)
  stateTracker : List (String × ConnectionState)
  broadcastHostIds : List String
  broadcastActive : Bool

/-- `TerminalManager.getTerminalIdsByHost` (TerminalManager.ts lines 94-97). -/
def getTerminalIdsByHost (st : ConnMgrState) (hostId : String) : List String :=
  (mapGet st.terminalsByHost hostId).getD []

/-- `TerminalManager.getTerminalInfosByHost` (TerminalManager.ts lines 102-106). -/
def getTerminalInfosByHost (st : ConnMgrState) (hostId : String) : List TerminalInfo :=
  (getTerminalIdsByHost st hostId).filterMap (fun id => mapGet st.terminals id)

/-- `ConnectionManager.recomputeHostState` (src/models/HealthState.ts lines 635-676):
recompute a host's aggregate connection state from its terminal sessions, record it in the
state tracker, and refresh the tree view.  Returns the new manager state and the
notifications fired. -/
def recomputeHostState (st : ConnMgrState) (hostId : String) (now : Nat) :
    ConnMgrState × List Notification :=
  match getTerminalIdsByHost st hostId with
  | [] =>
    ({ st with
        stateTracker := updateState st.stateTracker hostId .disconnected
          (some { terminalId := some none, exitCode := none, error := none }) now
        hostLastError := mapDel st.hostLastError hostId },
     [Notification.treeData none])
  | t0 :: rest =>
    let terminalIds := t0 :: rest
    let statuses := terminalIds.map
      (fun tid => (mapGet st.terminalStatuses tid).getD .disconnected)
    match terminalIds.find? (fun tid => mapGet st.terminalStatuses tid == some .connected) with
    | some cid =>
      ({ st with
          stateTracker := updateState st.stateTracker hostId .connected
            (some { terminalId := some (some cid), exitCode := none, error := none }) now },
       [Notification.treeData none])
    | none =>
      if statuses.contains .error then
        ({ st with
            stateTracker := updateState st.stateTracker hostId .error
              (some { terminalId := some (some t0), exitCode := none,
                      error := some ((mapGet st.hostLastError hostId).getD
                        ("Connection error".data)) }) now },
         [Notification.treeData none])
      else
        ({ st with
            stateTracker := updateState st.stateTracker hostId .disconnected
              (some { terminalId := some (some t0), exitCode := none, error := none }) now },
         [Notification.treeData none])

/-- Metadata attached to a pseudo-terminal status callback
(src/models/SSHHost.ts `ConnectionMetadata` as used by the manager). -/
structure ConnectionMetadata where
  error : Option (List Char)
  exitCode : Option Nat
deriving DecidableEq, Repr

/-- `ConnectionManager.handleStatusUpdate` (src/models/HealthState.ts lines 600-614):
record the session's new status, remember the host's last error, recompute the host
aggregate, and fire the void sessions-changed event. -/
def handleStatusUpdate (st : ConnMgrState) (hostId terminalId : String)
    (status : ConnectionStatus) (metadata : Option ConnectionMetadata) (now : Nat) :
    ConnMgrState × List Notification :=
  let st1 := { st with terminalStatuses := mapSet st.terminalStatuses terminalId status }
  let st2 :=
    match metadata.bind (·.error) with
    | some e => { st1 with hostLastError := mapSet st1.hostLastError hostId e }
    | none => st1
  let r := recomputeHostState st2 hostId now
  (r.1, r.2 ++ [Notification.sessionsChanged])

/-- Payload computation in `broadcastCommand` (HealthState.ts line 755):
`command.endsWith('\n') ? command : command + '\n'`. -/
def broadcastPayload (command : List Char) : List Char :=
  if command.getLast? = some '\n' then command else command ++ ['\n']

/-- `ConnectionManager.broadcastCommand` (src/models/HealthState.ts lines 750-769).
Returns the `sent` count and the list of `handleInput` writes performed, as
(terminalId, payload) pairs, in iteration order. -/
def broadcastCommand (st : ConnMgrState) (command : List Char) :
    Nat × List (String × List Char) :=
  if !st.broadcastActive || st.broadcastHostIds.isEmpty then (0, [])
  else
    let payload := broadcastPayload command
    st.broadcastHostIds.foldl
      (fun acc hostId =>
        (getTerminalInfosByHost st hostId).foldl
          (fun acc2 info =>
            if isStreamActive info.pty then (acc2.1 + 1, acc2.2 ++ [(info.terminalId, payload)])
            else acc2)
          acc)
      (0, [])

/-- The sessions that `broadcastCommand` actually writes to: those under a scoped host whose
transport is stream-active, in scope-then-host iteration order. -/
def streamActiveTargets (st : ConnMgrState) : List TerminalInfo :=
  st.broadcastHostIds.flatMap
    (fun hostId => (getTerminalInfosByHost st hostId).filter (fun info => isStreamActive info.pty))

/-- The liveness criterion the specification states for broadcast: session status Connected
and transport handle non-null.  Stated from the spec's words, for comparison with the
code's `isStreamActive`. -/
def specLiveSession (status : ConnectionStatus) (p : PtyState) : Bool :=
  (status = ConnectionStatus.connected) && (p.stream || !p.nativeProcess.isNone)

/-- A session whose external ssh process has spawned (exitCode still null), teardown not
run, but no SSH stream: the state during the 600ms grace window of the external-process
transport, before `markOpenSshConnected` runs. -/
def graceWindowTerminal : TerminalInfo :=
  { terminalId := "t1", hostId := "h1"
    pty := { stream := false, nativeProcess := some none, isCleanedUp := false } }

/-- Concrete manager state with broadcast active over host h1, which owns only the
grace-window session t1; t1's manager-side status is still Disconnected. -/
def graceWindowState : ConnMgrState :=
  { terminalsByHost := [("h1", ["t1"])]
    terminals := [("t1", graceWindowTerminal)]
    terminalStatuses := [("t1", ConnectionStatus.disconnected)]
    hostLastError := []
    stateTracker := []
    broadcastHostIds := ["h1"]
    broadcastActive := true }

/-- Concrete manager state for exercising a single session status event: host hA owns one
session tA, nothing else is tracked. -/
def singleSessionState : ConnMgrState :=
  { terminalsByHost := [("hA", ["tA"])]
    terminals := [("tA", { terminalId := "tA", hostId := "hA"
                           pty := { stream := true, nativeProcess := none, isCleanedUp := false } })]
    terminalStatuses := [("tA", ConnectionStatus.disconnected)]
    hostLastError := []
    stateTracker := []
    broadcastHostIds := []
    broadcastActive := false }

/-- Case-insensitive character list, modelling JS `toLowerCase` as used by the `i` regex
flag on the ASCII patterns the code tests. -/
def toLowerList (s : List Char) : List Char := s.map Char.toLower

/-- Whether `pat` occurs as a contiguous prefix of `hay`. -/
def isPrefixB : List Char → List Char → Bool
  | [], _ => true
  | _ :: _, [] => false
  | a :: as, b :: bs => a == b && isPrefixB as bs

/-- Whether `pat` occurs contiguously anywhere in `hay`. -/
def isInfixB (pat hay : List Char) : Bool :=
  match hay with
  | [] => pat.isEmpty
  | _ :: t => isPrefixB pat hay || isInfixB pat t

/-- Case-insensitive substring test: the meaning of `/pat/i.test(msg)` for the literal
alternation patterns the code uses. -/
def hasSubCI (msg pat : List Char) : Bool :=
  isInfixB (toLowerList pat) (toLowerList msg)

/-- Error classification kinds produced by `interpretConnectionError`
(TerminalWorkspaceViewProvider.ts lines 2124-2174). -/
inductive ErrKind where
  | auth
  | refused
  | timeout
  | dns
  | network
  | generic
deriving DecidableEq, Repr

/-- The `kind` field of `SSHPseudoTerminal.interpretConnectionError`
(TerminalWorkspaceViewProvider.ts lines 2124-2174); each regex of the source is the
case-insensitive alternation of the literal patterns tested here.  The user-facing
`friendly`/`showRaw` fields are not modelled. -/
def interpretConnectionErrorKind (msg : List Char) : ErrKind :=
  if hasSubCI msg ("all configured authentication methods failed".data)
      || hasSubCI msg ("permission denied".data)
      || hasSubCI msg ("authentication failed".data) then ErrKind.auth
  else if hasSubCI msg ("ECONNREFUSED".data)
      || hasSubCI msg ("connection refused".data) then ErrKind.refused
  else if hasSubCI msg ("ETIMEDOUT".data) || hasSubCI msg ("timed out".data)
      || hasSubCI msg ("timeout".data) then ErrKind.timeout
  else if hasSubCI msg ("ENOTFOUND".data) || hasSubCI msg ("getaddrinfo".data) then ErrKind.dns
  else if hasSubCI msg ("EHOSTUNREACH".data) || hasSubCI msg ("ENETUNREACH".data)
      || hasSubCI msg ("host is unreachable".data)
      || hasSubCI msg ("network is unreachable".data) then ErrKind.network
  else ErrKind.generic

/-- The network-error test of `handleErrorAsync` (TerminalWorkspaceViewProvider.ts
line 2007). -/
def isNetworkErrorB (msg : List Char) : Bool :=
  hasSubCI msg ("ETIMEDOUT".data) || hasSubCI msg ("ECONNRESET".data)
    || hasSubCI msg ("EPIPE".data) || hasSubCI msg ("EHOSTUNREACH".data)
    || hasSubCI msg ("ENETUNREACH".data) || hasSubCI msg ("socket hang up".data)

/-- Authentication method of a host (src/models/SSHHost.ts `authMethod`). -/
inductive AuthMethod where
  | password
  | keyfile
  | agent
  | openssh
deriving DecidableEq, Repr

/-- The `SSHPseudoTerminal` flags consulted by `handleErrorAsync`
(TerminalWorkspaceViewProvider.ts lines 1580-1589) plus the host's auth method. -/
structure PtyFlags where
  isCleanedUp : Bool
  hasRetriedAuthentication : Bool
  hasEverConnected : Bool
  hasShownErrorNotification : Bool
  authMethod : AuthMethod
  passwordOverride : Option (List Char)
deriving DecidableEq, Repr

/-- `SSHPseudoTerminal.shouldRetryAuthentication`
(TerminalWorkspaceViewProvider.ts lines 2116-2122). -/
def shouldRetryAuthentication (f : PtyFlags) (kind : ErrKind) : Bool :=
  if (f.authMethod != AuthMethod.password) || f.hasRetriedAuthentication then false
  else kind == ErrKind.auth

/-- Observable effects of one `handleErrorAsync` run: the new flag state, whether the
cached password was deleted, whether the operator was re-prompted, whether `connect()` was
called again, the status transition pushed through the status callback, the argument of
`closeEmitter.fire`, whether `cleanup()` ran, and whether the reconnect offer was shown. -/
structure ErrorEffects where
  flags : PtyFlags
  deletedPassword : Bool
  prompted : Bool
  reconnected : Bool
  statusSet : Option ConnectionStatus
  closeFired : Option Nat
  cleanedUp : Bool
  promptedReconnect : Bool
deriving DecidableEq, Repr

/-- `SSHPseudoTerminal.handleErrorAsync` (TerminalWorkspaceViewProvider.ts lines
1975-2031).  `promptResult` is the outcome of the `getPassword()` re-prompt on the retry
path (`none` = cancelled); it is consulted only there.  User-facing message strings are
not modelled; status transitions, close events and cleanup are recorded in the effects. -/
def handleErrorAsync (f : PtyFlags) (errorMsg : List Char)
    (promptResult : Option (List Char)) : ErrorEffects :=
  if f.isCleanedUp then
    { flags := f, deletedPassword := false, prompted := false, reconnected := false,
      statusSet := none, closeFired := none, cleanedUp := false, promptedReconnect := false }
  else
    let kind := interpretConnectionErrorKind errorMsg
    if shouldRetryAuthentication f kind then
      let f1 := { f with hasRetriedAuthentication := true }
      match promptResult with
      | none =>
        { flags := { f1 with isCleanedUp := true }, deletedPassword := true, prompted := true,
          reconnected := false, statusSet := some ConnectionStatus.error, closeFired := some 1,
          cleanedUp := true, promptedReconnect := false }
      | some pw =>
        { flags := { f1 with passwordOverride := some pw }, deletedPassword := true,
          prompted := true, reconnected := true, statusSet := none, closeFired := none,
          cleanedUp := false, promptedReconnect := false }
    else if f.hasEverConnected && isNetworkErrorB errorMsg then
      { flags := f, deletedPassword := false, prompted := false, reconnected := false,
        statusSet := some ConnectionStatus.error, closeFired := none, cleanedUp := false,
        promptedReconnect := true }
    else
      let f2 :=
        if !f.hasEverConnected && !f.hasShownErrorNotification then
          { f with hasShownErrorNotification := true }
        else f
      { flags := { f2 with isCleanedUp := true }, deletedPassword := false, prompted := false,
        reconnected := false, statusSet := some ConnectionStatus.error, closeFired := some 1,
        cleanedUp := true, promptedReconnect := false }

/-- A spawned child process handle (`killed` flag and `exitCode`, `none` while running). -/
structure NativeProc where
  killed : Bool
  exitCode : Option Nat
deriving DecidableEq, Repr

/-- Transport-resource state of an `SSHPseudoTerminal` as touched by teardown
(TerminalWorkspaceViewProvider.ts lines 1574-1590): SSH stream and client handles
(present/absent), the spawned process, the pending grace timer and the lifecycle flags. -/
structure TransportState where
  stream : Bool
  client : Bool
  nativeProcess : Option NativeProc
  openSshConnectedTimer : Bool
  isCleanedUp : Bool
  streamClosedGracefully : Bool
  openSshMarkedConnected : Bool
deriving DecidableEq, Repr

/-- Release side effects teardown can perform: clearing the grace timer, `stream.close()`,
`client.end()`, `process.kill()`. -/
inductive TeardownEffect where
  | timerCleared
  | streamClosed
  | clientEnded
  | processKilled
deriving DecidableEq, Repr

/-- `SSHPseudoTerminal.clearOpenSshConnectedTimer`
(TerminalWorkspaceViewProvider.ts lines 2216-2222). -/
def clearOpenSshConnectedTimer (t : TransportState) : TransportState × List TeardownEffect :=
  if t.openSshConnectedTimer then
    ({ t with openSshConnectedTimer := false }, [TeardownEffect.timerCleared])
  else (t, [])

/-- `SSHPseudoTerminal.teardownConnection` (TerminalWorkspaceViewProvider.ts lines
2053-2082): close the stream if present, end the client if present, kill the process if
it is still running, nulling each handle. -/
def teardownConnection (t : TransportState) : TransportState × List TeardownEffect :=
  ({ t with stream := false, client := false, nativeProcess := none,
            openSshConnectedTimer := false },
   (if t.openSshConnectedTimer then [TeardownEffect.timerCleared] else []) ++
   (if t.stream then [TeardownEffect.streamClosed] else []) ++
   (if t.client then [TeardownEffect.clientEnded] else []) ++
   (match t.nativeProcess with
    | some p => if !p.killed && p.exitCode.isNone then [TeardownEffect.processKilled] else []
    | none => []))

/-- `SSHPseudoTerminal.cleanup` (TerminalWorkspaceViewProvider.ts lines 2045-2051),
reached from `close()` (line 1612-1614) and every terminal transition. -/
def cleanup (t : TransportState) : TransportState × List TeardownEffect :=
  if t.isCleanedUp then (t, [])
  else teardownConnection { t with isCleanedUp := true }

/-- `SSHPseudoTerminal.cleanupConnection` (TerminalWorkspaceViewProvider.ts lines
2087-2091): teardown while keeping the terminal open for reconnect. -/
def cleanupConnection (t : TransportState) : TransportState × List TeardownEffect :=
  let r := teardownConnection t
  ({ r.1 with streamClosedGracefully := false, openSshMarkedConnected := false }, r.2)

/-- The teardown entry points a session can go through during close/error/exit handling:
`close()` (which runs `cleanup`), the auth-retry path's direct `teardownConnection`, and
the network-error path's `cleanupConnection`. -/
inductive TeardownOp where
  | close
  | teardownDirect
  | cleanupConn
deriving DecidableEq, Repr

/-- Run one teardown entry point. -/
def runTeardownOp (t : TransportState) (op : TeardownOp) : TransportState × List TeardownEffect :=
  match op with
  | TeardownOp.close => cleanup t
  | TeardownOp.teardownDirect => teardownConnection t
  | TeardownOp.cleanupConn => cleanupConnection t

/-- Run a sequence of teardown entry points, concatenating the emitted release effects. -/
def runTeardownOps (t : TransportState) : List TeardownOp → TransportState × List TeardownEffect
  | [] => (t, [])
  | op :: ops =>
    let r := runTeardownOp t op
    let rest := runTeardownOps r.1 ops
    (rest.1, r.2 ++ rest.2)

/-- Whether a teardown run from state `t` would perform the given release effect: the
corresponding handle is currently held (stream/client present, timer pending, process
spawned, not killed and still running). -/
def teardownEmits : TeardownEffect → TransportState → Bool
  | TeardownEffect.timerCleared, t => t.openSshConnectedTimer
  | TeardownEffect.streamClosed, t => t.stream
  | TeardownEffect.clientEnded, t => t.client
  | TeardownEffect.processKilled, t =>
    match t.nativeProcess with
    | some p => !p.killed && p.exitCode.isNone
    | none => false

/-- Observable effects of a shell-close handler run: decoder flush, the status transition
with its exit-code metadata and recorded error message, the `closeEmitter.fire` argument,
and whether `cleanup()` ran. -/
structure CloseEffects where
  flushedDecoders : Bool
  statusSet : Option ConnectionStatus
  exitCodeSet : Option Nat
  errorRecorded : Option (List Char)
  closeFired : Option Nat
  cleanedUp : Bool
deriving DecidableEq, Repr

/-- `SSHPseudoTerminal.onStreamClose` (TerminalWorkspaceViewProvider.ts lines 1899-1919);
`code = none` models an undefined/null exit code of the SSH shell stream. -/
def onStreamClose (code : Option Nat) : CloseEffects :=
  match code with
  | none =>
    { flushedDecoders := true, statusSet := some ConnectionStatus.disconnected,
      exitCodeSet := some 0, errorRecorded := none, closeFired := some 0, cleanedUp := true }
  | some c =>
    if c = 0 then
      { flushedDecoders := true, statusSet := some ConnectionStatus.disconnected,
        exitCodeSet := some 0, errorRecorded := none, closeFired := some 0, cleanedUp := true }
    else
      { flushedDecoders := true, statusSet := some ConnectionStatus.error,
        exitCodeSet := some c,
        errorRecorded := some ("Exit code: ".data ++ Nat.toDigits 10 c),
        closeFired := some 1, cleanedUp := true }

/-- `SSHPseudoTerminal.onOpenSshProcessClose` (TerminalWorkspaceViewProvider.ts lines
1941-1966); `code`/`signal` are the child process close-event arguments (`none` = null). -/
def onOpenSshProcessClose (isCleanedUp : Bool) (code : Option Nat)
    (signal : Option (List Char)) : CloseEffects :=
  if isCleanedUp then
    { flushedDecoders := false, statusSet := none, exitCodeSet := none, errorRecorded := none,
      closeFired := none, cleanedUp := false }
  else if code = some 0 then
    { flushedDecoders := true, statusSet := some ConnectionStatus.disconnected,
      exitCodeSet := some 0, errorRecorded := none, closeFired := some 0, cleanedUp := true }
  else
    let details :=
      match signal with
      | some s => "signal: ".data ++ s
      | none => "exit code: ".data ++ Nat.toDigits 10 (code.getD 1)
    { flushedDecoders := true, statusSet := some ConnectionStatus.error,
      exitCodeSet := some (code.getD 1), errorRecorded := some details,
      closeFired := some 1, cleanedUp := true }

/-- Health state snapshot for a host (src/models/HealthState.ts, interface
HostHealthState). -/
structure HostHealthState where
  hostId : String
  status : HostHealthStatus
  checkedAt : Option Nat
  latencyMs : Option Nat
  error : Option (List Char)
  consecutiveFailures : Nat
deriving DecidableEq, Repr

/-- The host fields the health prober reads (src/models/SSHHost.ts: id and the
config's host/port). -/
structure HostCfg where
  id : String
  host : List Char
  port : Nat
deriving DecidableEq, Repr

/-- Mutable state of `HealthCheckManager` (part_009 lines 161-165): the per-host health
map, the single-flight guard set, the fleet-wide-run guard and the disposed flag. -/
structure HealthMgrState where
  states : List (String × HostHealthState)
  activeChecks : List String
  runningCheckAll : Bool
  disposed : Bool
deriving DecidableEq, Repr

/-- `HealthCheckManager.normalizeHealthError` (part_009 lines 326-344). -/
def normalizeHealthError (errorMsg : List Char) (host : HostCfg) : List Char :=
  if hasSubCI errorMsg ("ENOTFOUND".data) || hasSubCI errorMsg ("getaddrinfo".data) then
    "DNS lookup failed for ".data ++ host.host
  else if hasSubCI errorMsg ("timeout".data) || hasSubCI errorMsg ("ETIMEDOUT".data) then
    "Health check timed out (".data ++ host.host ++ [':'] ++ Nat.toDigits 10 host.port ++ [')']
  else if hasSubCI errorMsg ("ECONNREFUSED".data)
      || hasSubCI errorMsg ("connection refused".data) then
    "SSH port closed/refused (".data ++ host.host ++ [':'] ++ Nat.toDigits 10 host.port ++ [')']
  else if hasSubCI errorMsg ("EHOSTUNREACH".data) || hasSubCI errorMsg ("ENETUNREACH".data)
      || hasSubCI errorMsg ("unreachable".data) then
    "Host/network unreachable (".data ++ host.host ++ [')']
  else "Unhealthy: ".data ++ errorMsg

/-- Result of one `checkHost` run: the new manager state, the sequence of `states.set`
writes, the `onDidUpdateHealth` events fired, and whether a probe connection was opened. -/
structure CheckHostResult where
  state : HealthMgrState
  writes : List (String × HostHealthState)
  events : List (Option String)
  probeOpened : Bool
deriving DecidableEq, Repr

/-- `HealthCheckManager.checkHost` (part_009 lines 247-289).  `probe` is the outcome of
the `probeTcp` connection attempt — measured latency on success, the error's message on
failure; `now` models `new Date()`. -/
def checkHost (st : HealthMgrState) (host : HostCfg) (probe : Except (List Char) Nat)
    (now : Nat) : CheckHostResult :=
  if st.activeChecks.contains host.id || st.disposed then
    { state := st, writes := [], events := [], probeOpened := false }
  else
    let previous := mapGet st.states host.id
    let checking : HostHealthState :=
      { hostId := host.id, status := HostHealthStatus.checking
        checkedAt := previous.bind (·.checkedAt)
        latencyMs := previous.bind (·.latencyMs)
        error := previous.bind (·.error)
        consecutiveFailures := (previous.map (·.consecutiveFailures)).getD 0 }
    let st1 : HealthMgrState :=
      { st with states := mapSet st.states host.id checking
                activeChecks := st.activeChecks ++ [host.id] }
    let final : HostHealthState :=
      match probe with
      | Except.ok latencyMs =>
        { hostId := host.id, status := HostHealthStatus.healthy, checkedAt := some now
          latencyMs := some latencyMs, error := none, consecutiveFailures := 0 }
      | Except.error errorMsg =>
        { hostId := host.id, status := HostHealthStatus.unhealthy, checkedAt := some now
          latencyMs := none, error := some (normalizeHealthError errorMsg host)
          consecutiveFailures := (previous.map (·.consecutiveFailures)).getD 0 + 1 }
    { state := { st1 with states := mapSet st1.states host.id final
                          activeChecks := st1.activeChecks.filter (fun x => !(x == host.id)) }
      writes := [(host.id, checking), (host.id, final)]
      events := [some host.id, some host.id]
      probeOpened := true }

/-- Result of one `checkAllNow` run. -/
structure CheckAllResult where
  state : HealthMgrState
  events : List (Option String)
  probesOpened : Nat
deriving DecidableEq, Repr

/-- `HealthCheckManager.checkAllNow` (part_009 lines 223-245), with the
`Promise.allSettled` of the per-host checks linearized in host order.  `enabled` is the
`healthChecks.enabled` configuration read; `probe` gives each host's probe outcome. -/
def checkAllNow (st : HealthMgrState) (enabled : Bool) (hosts : List HostCfg)
    (probe : String → Except (List Char) Nat) (now : Nat) : CheckAllResult :=
  if st.runningCheckAll || st.disposed || !enabled then
    { state := st, events := [], probesOpened := 0 }
  else
    let activeIds := hosts.map (·.id)
    let pruned := st.states.filter (fun p => activeIds.contains p.1)
    let st1 : HealthMgrState := { st with runningCheckAll := true, states := pruned }
    let run := hosts.foldl
      (fun acc host =>
        let r := checkHost acc.1 host (probe host.id) now
        (r.state, acc.2.1 ++ r.events, acc.2.2 + (if r.probeOpened then 1 else 0)))
      (st1, ([], 0))
    { state := { run.1 with runningCheckAll := false }
      events := run.2.1 ++ [none]
      probesOpened := run.2.2 }

/-- Health manager state in which a probe for host h1 is already outstanding. -/
def outstandingProbeState : HealthMgrState :=
  { states := [], activeChecks := ["h1"], runningCheckAll := false, disposed := false }

/-- Health manager state in which a fleet-wide checkAll is already running. -/
def runningCheckAllState : HealthMgrState :=
  { states := [], activeChecks := [], runningCheckAll := true, disposed := false }

/-- Idle health manager with no cached state: host h1 has health Unknown (no entry). -/
def idleHealthState : HealthMgrState :=
  { states := [], activeChecks := [], runningCheckAll := false, disposed := false }

/-- A host record for the closed-port probe scenario. -/
def localHost1 : HostCfg := { id := "h1", host := "127.0.0.1".data, port := 54321 }

/-- Whether a byte is a UTF-8 continuation byte (10xxxxxx). -/
def isCont (b : Nat) : Bool := 0x80 ≤ b && b ≤ 0xBF

/-- Allowed range of the first continuation byte after a 3-byte lead; excludes overlong
encodings (lead 0xE0) and UTF-16 surrogates (lead 0xED). -/
def cont3Ok (lead b1 : Nat) : Bool :=
  if lead = 0xE0 then 0xA0 ≤ b1 && b1 ≤ 0xBF
  else if lead = 0xED then 0x80 ≤ b1 && b1 ≤ 0x9F
  else isCont b1

/-- Allowed range of the first continuation byte after a 4-byte lead; excludes overlong
encodings (lead 0xF0) and code points beyond U+10FFFF (lead 0xF4). -/
def cont4Ok (lead b1 : Nat) : Bool :=
  if lead = 0xF0 then 0x90 ≤ b1 && b1 ≤ 0xBF
  else if lead = 0xF4 then 0x80 ≤ b1 && b1 ≤ 0x8F
  else isCont b1

/-- One step of a UTF-8 decoder at the head of a byte list. -/
inductive Utf8Step where
  | empty
  | emit (c : Nat) (rest : List Nat)
  | needMore
  | invalid (rest : List Nat)
deriving DecidableEq, Repr

/-- Decode one code point from the head of a byte list: `emit` on a complete valid
sequence, `needMore` when the whole list is a proper prefix of one valid multi-byte
sequence, `invalid` (resuming after the lead byte) on a malformed head. -/
def utf8Step : List Nat → Utf8Step
  | [] => Utf8Step.empty
  | b :: rest =>
    if b < 0x80 then Utf8Step.emit b rest
    else if 0xC2 ≤ b && b ≤ 0xDF then
      match rest with
      | [] => Utf8Step.needMore
      | b1 :: r1 =>
        if isCont b1 then Utf8Step.emit ((b - 0xC0) * 0x40 + (b1 - 0x80)) r1
        else Utf8Step.invalid rest
    else if 0xE0 ≤ b && b ≤ 0xEF then
      match rest with
      | [] => Utf8Step.needMore
      | [b1] => if cont3Ok b b1 then Utf8Step.needMore else Utf8Step.invalid rest
      | b1 :: b2 :: r2 =>
        if cont3Ok b b1 && isCont b2 then
          Utf8Step.emit ((b - 0xE0) * 0x1000 + (b1 - 0x80) * 0x40 + (b2 - 0x80)) r2
        else Utf8Step.invalid rest
    else if 0xF0 ≤ b && b ≤ 0xF4 then
      match rest with
      | [] => Utf8Step.needMore
      | [b1] => if cont4Ok b b1 then Utf8Step.needMore else Utf8Step.invalid rest
      | [b1, b2] =>
        if cont4Ok b b1 && isCont b2 then Utf8Step.needMore else Utf8Step.invalid rest
      | b1 :: b2 :: b3 :: r3 =>
        if cont4Ok b b1 && isCont b2 && isCont b3 then
          Utf8Step.emit ((b - 0xF0) * 0x40000 + (b1 - 0x80) * 0x1000
            + (b2 - 0x80) * 0x40 + (b3 - 0x80)) r3
        else Utf8Step.invalid rest
    else Utf8Step.invalid rest

/-- The Unicode replacement character U+FFFD emitted for malformed input. -/
def replacementChar : Nat := 0xFFFD

/-- Fuel-driven one-shot UTF-8 decode of a whole byte list into code points; malformed
heads and a truncated trailing sequence decode to the replacement character. -/
def utf8DecodeFuel : Nat → List Nat → List Nat
  | 0, _ => []
  | fuel + 1, bs =>
    match utf8Step bs with
    | Utf8Step.empty => []
    | Utf8Step.emit c rest => c :: utf8DecodeFuel fuel rest
    | Utf8Step.needMore => [replacementChar]
    | Utf8Step.invalid rest => replacementChar :: utf8DecodeFuel fuel rest

/-- One-shot UTF-8 decode of a whole byte list (decoding the full stream in one write). -/
def utf8DecodeAll (bs : List Nat) : List Nat := utf8DecodeFuel bs.length bs

/-- Fuel-driven incremental pass: decode complete code points from the front, stopping at
a trailing incomplete sequence, which is returned as the pending remainder. -/
def decodeChunkFuel : Nat → List Nat → List Nat × List Nat
  | 0, bs => ([], bs)
  | fuel + 1, bs =>
    match utf8Step bs with
    | Utf8Step.empty => ([], [])
    | Utf8Step.emit c rest =>
      let r := decodeChunkFuel fuel rest
      (c :: r.1, r.2)
    | Utf8Step.needMore => ([], bs)
    | Utf8Step.invalid rest =>
      let r := decodeChunkFuel fuel rest
      (replacementChar :: r.1, r.2)

/-- Whether the byte list is valid UTF-8: a concatenation of complete valid sequences. -/
def utf8ValidFuel : Nat → List Nat → Bool
  | 0, bs => bs.isEmpty
  | fuel + 1, bs =>
    match utf8Step bs with
    | Utf8Step.empty => true
    | Utf8Step.emit _ rest => utf8ValidFuel fuel rest
    | Utf8Step.needMore => false
    | Utf8Step.invalid _ => false

/-- Whether a whole byte list forms valid UTF-8 text. -/
def utf8ValidB (bs : List Nat) : Bool := utf8ValidFuel bs.length bs

/-- The persistent stream decoder of a session output channel, modelling Node's
`StringDecoder('utf8')` as the session holds it per channel
(TerminalWorkspaceViewProvider.ts lines 1585-1588): it carries the trailing partial
multi-byte sequence across writes. -/
structure StreamDecoder where
  pending : List Nat
deriving DecidableEq, Repr

/-- `decoder.write(data)` of the utf8 StringDecoder: decode the buffered partial sequence
followed by the new bytes, return the decoded text (as code points) and buffer the new
trailing incomplete sequence. -/
def decoderWrite (d : StreamDecoder) (data : List Nat) : List Nat × StreamDecoder :=
  let total := d.pending ++ data
  let r := decodeChunkFuel total.length total
  (r.1, { pending := r.2 })

/-- `decoder.end()`: flush the buffered partial character — a replacement character when
the stream ended mid-sequence, nothing otherwise. -/
def decoderEnd (d : StreamDecoder) : List Nat :=
  if d.pending.isEmpty then [] else [replacementChar]

/-- `SSHPseudoTerminal.emitDecodedChunk` (TerminalWorkspaceViewProvider.ts lines
2239-2244): push the bytes through the persistent decoder and fire the decoded chunk iff
it is non-empty.  Returns the updated decoder and the fired chunks. -/
def emitDecodedChunk (d : StreamDecoder) (data : List Nat) :
    StreamDecoder × List (List Nat) :=
  let r := decoderWrite d data
  (r.2, if r.1.length > 0 then [r.1] else [])

/-- `SSHPseudoTerminal.flushDecoder` (TerminalWorkspaceViewProvider.ts lines 2256-2261):
fire the decoder's `end()` output iff it is non-empty. -/
def flushDecoder (d : StreamDecoder) : List (List Nat) :=
  let chunk := decoderEnd d
  if chunk.length > 0 then [chunk] else []

/-- Feed a series of output chunks through `emitDecodedChunk` from a fresh decoder, then
flush at stream close (`flushStreamDecoders`, lines 2246-2249); the session's decoded
text is the concatenation of all fired chunks. -/
def sessionDecode (datas : List (List Nat)) : List Nat :=
  let r := datas.foldl
    (fun acc data =>
      let e := emitDecodedChunk acc.1 data
      (e.1, acc.2 ++ e.2))
    ({ pending := [] }, [])
  (r.2 ++ flushDecoder r.1).flatten

/-- Incremental front decode at canonical fuel. -/
def decodeChunk (bs : List Nat) : List Nat × List Nat := decodeChunkFuel bs.length bs

/-- `MAX_OUTPUT_BUFFER` (part_011 line 8). -/
def MAX_OUTPUT_BUFFER : Nat := 250000

/-- The output-buffer update of `WorkspaceSessionManager.appendOutput` (part_011 lines
332-349): concatenate the chunk onto the retained output, then keep only the trailing
`MAX_OUTPUT_BUFFER` characters; JS `slice(n)` on a string is `drop n`. -/
def appendOutput (output chunk : List Char) : List Char :=
  let nextOutput := output ++ chunk
  if nextOutput.length > MAX_OUTPUT_BUFFER then
    nextOutput.drop (nextOutput.length - MAX_OUTPUT_BUFFER)
  else nextOutput

/-- The retained output of a workspace session that started with the empty output
(`connectHost`, part_011 line 148) and received the given chunks in order. -/
def outputAfter (chunks : List (List Char)) : List Char :=
  chunks.foldl appendOutput []

/-- A live structured-transport session: stream and client held, nothing cleaned up. -/
def liveTransport : TransportState :=
  { stream := true, client := true, nativeProcess := none, openSshConnectedTimer := false
    isCleanedUp := false, streamClosedGracefully := false, openSshMarkedConnected := false }

section Lemmas

theorem mapGet_nil {α : Type} (k : String) : mapGet ([] : List (String × α)) k = none := rfl

theorem mapGet_cons {α : Type} (p : String × α) (m : List (String × α)) (k : String) :
    mapGet (p :: m) k = if p.1 = k then some p.2 else mapGet m k := by
  by_cases h : p.1 = k
  · simp [mapGet, List.find?_cons_of_pos, h]
  · simp only [mapGet, if_neg h]
    rw [List.find?_cons_of_neg]
    simp [h]

theorem mapGet_mapSet_self {α : Type} (m : List (String × α)) (k : String) (v : α) :
    mapGet (mapSet m k v) k = some v := by
  induction m with
  | nil => simp [mapSet, mapGet_cons]
  | cons p rest ih =>
    by_cases h : p.1 = k
    · simp [mapSet, h, mapGet_cons]
    · simp [mapSet, h, mapGet_cons, ih]

theorem mapGet_mapSet_ne {α : Type} (m : List (String × α)) (k k' : String) (v : α)
    (h : k' ≠ k) : mapGet (mapSet m k v) k' = mapGet m k' := by
  induction m with
  | nil => simp [mapSet, mapGet_cons, Ne.symm h]
  | cons p rest ih =>
    by_cases hp : p.1 = k
    · simp [mapSet, hp, mapGet_cons, Ne.symm h]
    · by_cases hp' : p.1 = k'
      · simp [mapSet, hp, hp', h, mapGet_cons]
      · simp [mapSet, hp, hp', h, mapGet_cons, ih]

theorem mapGet_updateState_self (states : List (String × ConnectionState)) (hostId : String)
    (status : ConnectionStatus) (metadata : Option UpdateMeta) (now : Nat) :
    (mapGet (updateState states hostId status metadata now) hostId).map (·.status)
      = some status := by
  unfold updateState
  simp [mapGet_mapSet_self]

theorem mapGet_updateState_ne (states : List (String × ConnectionState)) (hostId : String)
    (status : ConnectionStatus) (metadata : Option UpdateMeta) (now : Nat) (k : String)
    (h : k ≠ hostId) :
    mapGet (updateState states hostId status metadata now) k = mapGet states k := by
  unfold updateState
  simp [mapGet_mapSet_ne _ _ _ _ h]

theorem statuses_contains_error_eq (ids : List String)
    (m : List (String × ConnectionStatus)) :
    ((ids.map (fun tid => (mapGet m tid).getD ConnectionStatus.disconnected)).contains
        ConnectionStatus.error)
      = ids.any (fun tid => mapGet m tid == some ConnectionStatus.error) := by
  induction ids with
  | nil => rfl
  | cons t ids ih =>
    simp only [List.map_cons, List.contains_cons, List.any_cons, ih]
    congr 1
    cases hmg : mapGet m t with
    | none => simp
    | some s => cases s <;> simp

end Lemmas

/-- C1.  Host aggregate-state precedence: after `recomputeHostState`, the tracked status of
the host is Connected when any of its sessions is Connected, else Error when any session's
status is Error, else Disconnected; a host with zero sessions falls in the last case and is
Disconnected. -/
theorem recomputeHostState_precedence (st : ConnMgrState) (hostId : String) (now : Nat) :
    (mapGet (recomputeHostState st hostId now).1.stateTracker hostId).map (·.status) =
      some (if (getTerminalIdsByHost st hostId).any
              (fun tid => mapGet st.terminalStatuses tid == some ConnectionStatus.connected)
            then ConnectionStatus.connected
            else if (getTerminalIdsByHost st hostId).any
              (fun tid => mapGet st.terminalStatuses tid == some ConnectionStatus.error)
            then ConnectionStatus.error
            else ConnectionStatus.disconnected) := by
  unfold recomputeHostState
  cases hids : getTerminalIdsByHost st hostId with
  | nil => simp [mapGet_updateState_self]
  | cons t0 rest =>
    dsimp only
    cases hfind : (t0 :: rest).find?
        (fun tid => mapGet st.terminalStatuses tid == some ConnectionStatus.connected) with
    | some cid =>
      have hmem := List.mem_of_find?_eq_some hfind
      have hp := List.find?_some hfind
      have hany : (t0 :: rest).any
          (fun tid => mapGet st.terminalStatuses tid == some ConnectionStatus.connected)
            = true :=
        List.any_eq_true.mpr ⟨cid, hmem, hp⟩
      rw [hany]
      simpa using mapGet_updateState_self st.stateTracker hostId ConnectionStatus.connected
        (some { terminalId := some (some cid), exitCode := none, error := none }) now
    | none =>
      have hall := List.find?_eq_none.mp hfind
      have hany : (t0 :: rest).any
          (fun tid => mapGet st.terminalStatuses tid == some ConnectionStatus.connected)
            = false := by
        simp only [List.any_eq_false]
        intro x hx
        exact fun hc => hall x hx hc
      rw [statuses_contains_error_eq, hany]
      cases herr : (t0 :: rest).any
          (fun tid => mapGet st.terminalStatuses tid == some ConnectionStatus.error) with
      | false =>
        simpa [herr] using mapGet_updateState_self st.stateTracker hostId
          ConnectionStatus.disconnected
          (some { terminalId := some (some t0), exitCode := none, error := none }) now
      | true =>
        simpa [herr] using mapGet_updateState_self st.stateTracker hostId
          ConnectionStatus.error
          (some { terminalId := some (some t0), exitCode := none,
                  error := some ((mapGet st.hostLastError hostId).getD
                    ("Connection error".data)) }) now

end TerminaX

namespace TerminaX

section BroadcastLemmas

theorem broadcast_foldl_inner (payload : List Char) (infos : List TerminalInfo)
    (acc : Nat × List (String × List Char)) :
    infos.foldl
        (fun acc2 info =>
          if isStreamActive info.pty then (acc2.1 + 1, acc2.2 ++ [(info.terminalId, payload)])
          else acc2) acc
      = (acc.1 + (infos.filter (fun i => isStreamActive i.pty)).length,
         acc.2 ++ (infos.filter (fun i => isStreamActive i.pty)).map
           (fun i => (i.terminalId, payload))) := by
  induction infos generalizing acc with
  | nil => simp
  | cons i rest ih =>
    by_cases h : isStreamActive i.pty
    · rw [List.foldl_cons, if_pos h, ih]
      simp [Prod.ext_iff, List.filter_cons, h]
      omega
    · rw [List.foldl_cons, if_neg h, ih]
      simp [List.filter_cons, h]

theorem broadcast_foldl_outer (st : ConnMgrState) (payload : List Char)
    (hosts : List String) (acc : Nat × List (String × List Char)) :
    hosts.foldl
        (fun acc hostId =>
          (getTerminalInfosByHost st hostId).foldl
            (fun acc2 info =>
              if isStreamActive info.pty
              then (acc2.1 + 1, acc2.2 ++ [(info.terminalId, payload)])
              else acc2) acc) acc
      = (acc.1 + (hosts.flatMap (fun h =>
             (getTerminalInfosByHost st h).filter (fun i => isStreamActive i.pty))).length,
         acc.2 ++ (hosts.flatMap (fun h =>
             (getTerminalInfosByHost st h).filter (fun i => isStreamActive i.pty))).map
           (fun i => (i.terminalId, payload))) := by
  induction hosts generalizing acc with
  | nil => simp
  | cons h hosts ih =>
    rw [List.foldl_cons, broadcast_foldl_inner, ih]
    simp [Prod.ext_iff, List.append_assoc]
    omega

end BroadcastLemmas

/-- C2 (amended).  Broadcast send: with an empty scope or inactive broadcast the result is
sent = 0 with zero writes; otherwise the command gets a newline appended if absent and
exactly the stream-active sessions under scoped hosts (transport handle present and
teardown not yet run, regardless of manager-side status) are each written once with the
payload, and sent counts exactly those writes. -/
theorem broadcastCommand_spec (st : ConnMgrState) (command : List Char) :
    broadcastCommand st command =
      (if st.broadcastActive && !st.broadcastHostIds.isEmpty then
        ((streamActiveTargets st).length,
         (streamActiveTargets st).map (fun i => (i.terminalId, broadcastPayload command)))
      else (0, []))
    ∧ (broadcastPayload command).getLast? = some '\n' := by
  constructor
  · unfold broadcastCommand
    by_cases hact : st.broadcastActive
    · by_cases hemp : st.broadcastHostIds.isEmpty
      · simp [hact, hemp]
      · rw [if_neg (by simp [hact, hemp])]
        rw [if_pos (by simp [hact, hemp])]
        rw [broadcast_foldl_outer]
        simp [streamActiveTargets]
    · simp [hact]
  · unfold broadcastPayload
    by_cases h : command.getLast? = some '\n'
    · simp [h]
    · simp [h, List.getLast?_concat]

/-- C2 counterexample.  With broadcast active over h1, whose only session is in the
external-process grace window (manager status Disconnected, spawned ssh process not yet
exited), `broadcastCommand` performs one write and reports sent = 1, although zero
sessions satisfy the claim's liveness criterion of status Connected with a non-null
handle — so broadcast does not silently skip that mid-authentication session. -/
theorem broadcastCommand_grace_window :
    (broadcastCommand graceWindowState ("uptime".data)).1 = 1 ∧
    (broadcastCommand graceWindowState ("uptime".data)).2.length = 1 ∧
    ((getTerminalInfosByHost graceWindowState ("h1")).filter
      (fun info => specLiveSession
        ((mapGet graceWindowState.terminalStatuses info.terminalId).getD
          ConnectionStatus.disconnected) info.pty)).length = 0 := by
  decide

end TerminaX

namespace TerminaX

theorem recomputeHostState_notifications (st : ConnMgrState) (hostId : String) (now : Nat) :
    (recomputeHostState st hostId now).2 = [Notification.treeData none] := by
  unfold recomputeHostState
  split
  · rfl
  · dsimp only
    split
    · rfl
    · split
      · rfl
      · rfl

theorem recomputeHostState_tracker_frame (st : ConnMgrState) (hostId : String) (now : Nat)
    (k : String) (hk : k ≠ hostId) :
    mapGet (recomputeHostState st hostId now).1.stateTracker k = mapGet st.stateTracker k := by
  unfold recomputeHostState
  split
  · exact mapGet_updateState_ne _ _ _ _ _ _ hk
  · dsimp only
    split
    · exact mapGet_updateState_ne _ _ _ _ _ _ hk
    · split
      · exact mapGet_updateState_ne _ _ _ _ _ _ hk
      · exact mapGet_updateState_ne _ _ _ _ _ _ hk

/-- C6 (amended).  A session status event causes only that host's aggregate state to be
recomputed — the tracker entry of every other host is untouched — but the notifications
it emits are unscoped: exactly one full-tree refresh carrying no element and the void
sessions-changed event, neither of which carries a host id. -/
theorem handleStatusUpdate_scope (st : ConnMgrState) (hostId terminalId : String)
    (status : ConnectionStatus) (metadata : Option ConnectionMetadata) (now : Nat)
    (k : String) (hk : k ≠ hostId) :
    (handleStatusUpdate st hostId terminalId status metadata now).2
        = [Notification.treeData none, Notification.sessionsChanged]
    ∧ mapGet (handleStatusUpdate st hostId terminalId status metadata now).1.stateTracker k
        = mapGet st.stateTracker k := by
  unfold handleStatusUpdate
  cases hmd : metadata.bind (·.error) with
  | none =>
    refine ⟨?_, recomputeHostState_tracker_frame _ _ _ _ hk⟩
    show (recomputeHostState _ hostId now).2 ++ [Notification.sessionsChanged] = _
    rw [recomputeHostState_notifications]
    rfl
  | some e =>
    refine ⟨?_, recomputeHostState_tracker_frame _ _ _ _ hk⟩
    show (recomputeHostState _ hostId now).2 ++ [Notification.sessionsChanged] = _
    rw [recomputeHostState_notifications]
    rfl

/-- Witness for `handleStatusUpdate_scope` at a concrete session event for host hA and an
unrelated key hB. -/
theorem handleStatusUpdate_scope_witness :
    (handleStatusUpdate singleSessionState ("hA") ("tA") ConnectionStatus.connected none 0).2
        = [Notification.treeData none, Notification.sessionsChanged]
    ∧ mapGet (handleStatusUpdate singleSessionState ("hA") ("tA")
        ConnectionStatus.connected none 0).1.stateTracker ("hB")
        = mapGet singleSessionState.stateTracker ("hB") :=
  handleStatusUpdate_scope singleSessionState ("hA") ("tA") ConnectionStatus.connected none 0
    ("hB") (by decide)

/-- C6 counterexample.  For a concrete status event on host hA, the emitted notifications
are a full-tree refresh with no element and the void sessions-changed event: no emitted
notification is scoped to hA, and a fleet-wide (element-less) notification is emitted,
contrary to the claim. -/
theorem handleStatusUpdate_unscoped :
    (handleStatusUpdate singleSessionState ("hA") ("tA") ConnectionStatus.connected none 0).2
        = [Notification.treeData none, Notification.sessionsChanged]
    ∧ (∀ n ∈ (handleStatusUpdate singleSessionState ("hA") ("tA")
          ConnectionStatus.connected none 0).2, n ≠ Notification.treeData (some ("hA")))
    ∧ Notification.treeData none
        ∈ (handleStatusUpdate singleSessionState ("hA") ("tA")
            ConnectionStatus.connected none 0).2 := by
  decide

end TerminaX

namespace TerminaX

/-- C3.  Password-auth retry: on a password-auth session that has not yet retried, an
authentication-failure error deletes the cached secret, re-prompts, re-attempts the
connection with the replacement password and marks the retry; afterwards any further
error (second auth failure included) sets status Error, fires close(1) and cleans up with
no further retry; if the re-prompt is cancelled the session likewise goes to Error and is
terminated. -/
theorem password_auth_single_retry (f : PtyFlags) (msg pw : List Char)
    (hAuthMethod : f.authMethod = AuthMethod.password)
    (hNotCleaned : f.isCleanedUp = false)
    (hNotRetried : f.hasRetriedAuthentication = false)
    (hNeverConnected : f.hasEverConnected = false)
    (hKind : interpretConnectionErrorKind msg = ErrKind.auth) :
    ((handleErrorAsync f msg (some pw)).deletedPassword = true
      ∧ (handleErrorAsync f msg (some pw)).prompted = true
      ∧ (handleErrorAsync f msg (some pw)).reconnected = true
      ∧ (handleErrorAsync f msg (some pw)).flags.hasRetriedAuthentication = true
      ∧ (handleErrorAsync f msg (some pw)).flags.passwordOverride = some pw
      ∧ (handleErrorAsync f msg (some pw)).closeFired = none)
    ∧ (∀ msg2 pr2,
      (handleErrorAsync (handleErrorAsync f msg (some pw)).flags msg2 pr2).reconnected = false
      ∧ (handleErrorAsync (handleErrorAsync f msg (some pw)).flags msg2 pr2).prompted = false
      ∧ (handleErrorAsync (handleErrorAsync f msg (some pw)).flags msg2 pr2).statusSet
          = some ConnectionStatus.error
      ∧ (handleErrorAsync (handleErrorAsync f msg (some pw)).flags msg2 pr2).closeFired = some 1
      ∧ (handleErrorAsync (handleErrorAsync f msg (some pw)).flags msg2 pr2).cleanedUp = true)
    ∧ ((handleErrorAsync f msg none).statusSet = some ConnectionStatus.error
      ∧ (handleErrorAsync f msg none).closeFired = some 1
      ∧ (handleErrorAsync f msg none).cleanedUp = true
      ∧ (handleErrorAsync f msg none).reconnected = false) := by
  have hShould : shouldRetryAuthentication f (interpretConnectionErrorKind msg) = true := by
    simp [shouldRetryAuthentication, hAuthMethod, hNotRetried, hKind]
  refine ⟨?_, ?_, ?_⟩
  · simp [handleErrorAsync, hNotCleaned, hShould]
  · intro msg2 pr2
    have h1 : (handleErrorAsync f msg (some pw)).flags
        = { f with hasRetriedAuthentication := true, passwordOverride := some pw } := by
      simp [handleErrorAsync, hNotCleaned, hShould]
    rw [h1]
    simp [handleErrorAsync, shouldRetryAuthentication, hNotCleaned, hNeverConnected]
  · simp [handleErrorAsync, hNotCleaned, hShould]

/-- Witness for `password_auth_single_retry` on the ssh2 library's canonical
authentication-failure message. -/
theorem password_auth_single_retry_witness :
    ((handleErrorAsync
        { isCleanedUp := false, hasRetriedAuthentication := false, hasEverConnected := false,
          hasShownErrorNotification := false, authMethod := AuthMethod.password,
          passwordOverride := none }
        ("All configured authentication methods failed".data)
        (some ("hunter2".data))).deletedPassword = true
      ∧ (handleErrorAsync
        { isCleanedUp := false, hasRetriedAuthentication := false, hasEverConnected := false,
          hasShownErrorNotification := false, authMethod := AuthMethod.password,
          passwordOverride := none }
        ("All configured authentication methods failed".data)
        (some ("hunter2".data))).flags.hasRetriedAuthentication = true)
    ∧ (handleErrorAsync
        (handleErrorAsync
          { isCleanedUp := false, hasRetriedAuthentication := false, hasEverConnected := false,
            hasShownErrorNotification := false, authMethod := AuthMethod.password,
            passwordOverride := none }
          ("All configured authentication methods failed".data)
          (some ("hunter2".data))).flags
        ("All configured authentication methods failed".data) none).closeFired = some 1 := by
  have h := password_auth_single_retry
    { isCleanedUp := false, hasRetriedAuthentication := false, hasEverConnected := false,
      hasShownErrorNotification := false, authMethod := AuthMethod.password,
      passwordOverride := none }
    ("All configured authentication methods failed".data) ("hunter2".data)
    rfl rfl rfl rfl (by decide)
  exact ⟨⟨h.1.1, h.1.2.2.2.1⟩, (h.2.1 ("All configured authentication methods failed".data) none).2.2.2.1⟩

section TeardownLemmas

theorem count_if_singleton (e x : TeardownEffect) (b : Bool) :
    ((if b then [x] else []) : List TeardownEffect).count e
      = if b && (e == x) then 1 else 0 := by
  cases b <;> by_cases h : e = x <;> simp [h, List.count_cons]

theorem count_teardownConnection (t : TransportState) (e : TeardownEffect) :
    ((teardownConnection t).2.count e) = (if teardownEmits e t then 1 else 0) := by
  cases e <;> cases hp : t.nativeProcess <;>
    simp [teardownConnection, teardownEmits, List.count_append, count_if_singleton, hp] <;>
    split <;> simp

theorem teardownConnection_clears (t : TransportState) (e : TeardownEffect) :
    teardownEmits e (teardownConnection t).1 = false := by
  cases e <;> simp [teardownConnection, teardownEmits]

theorem teardownEmits_mk_cleaned (t : TransportState) (e : TeardownEffect) (b : Bool) :
    teardownEmits e { t with isCleanedUp := b } = teardownEmits e t := by
  cases e <;> simp [teardownEmits]

theorem teardownEmits_mk_closed_flags (t : TransportState) (e : TeardownEffect)
    (b1 b2 : Bool) :
    teardownEmits e { t with streamClosedGracefully := b1, openSshMarkedConnected := b2 }
      = teardownEmits e t := by
  cases e <;> simp [teardownEmits]

theorem cleanup_cleanup (t : TransportState) : cleanup (cleanup t).1 = ((cleanup t).1, []) := by
  have hc : (cleanup t).1.isCleanedUp = true := by
    by_cases h : t.isCleanedUp
    · simp [cleanup, h]
    · rw [cleanup, if_neg (by simp [h])]
      rfl
  rw [cleanup, if_pos hc]

theorem runTeardownOp_count_le (t : TransportState) (op : TeardownOp) (e : TeardownEffect) :
    (runTeardownOp t op).2.count e ≤ 1 := by
  cases op with
  | close =>
    by_cases h : t.isCleanedUp
    · simp [runTeardownOp, cleanup, h]
    · show (cleanup t).2.count e ≤ 1
      rw [cleanup, if_neg h, count_teardownConnection]
      split <;> omega
  | teardownDirect =>
    show ((teardownConnection t).2.count e) ≤ 1
    rw [count_teardownConnection]
    split <;> omega
  | cleanupConn =>
    show ((teardownConnection t).2.count e) ≤ 1
    rw [count_teardownConnection]
    split <;> omega

theorem runTeardownOp_dead (t : TransportState) (op : TeardownOp) (e : TeardownEffect)
    (h : teardownEmits e t = false) :
    (runTeardownOp t op).2.count e = 0
      ∧ teardownEmits e (runTeardownOp t op).1 = false := by
  cases op with
  | close =>
    by_cases hcl : t.isCleanedUp
    · exact ⟨by simp [runTeardownOp, cleanup, hcl], by simpa [runTeardownOp, cleanup, hcl] using h⟩
    · constructor
      · show (cleanup t).2.count e = 0
        rw [cleanup, if_neg hcl, count_teardownConnection, teardownEmits_mk_cleaned, h]
        rfl
      · show teardownEmits e (cleanup t).1 = false
        rw [cleanup, if_neg hcl]
        exact teardownConnection_clears _ _
  | teardownDirect =>
    refine ⟨?_, teardownConnection_clears _ _⟩
    rw [show (runTeardownOp t TeardownOp.teardownDirect).2 = (teardownConnection t).2 from rfl,
      count_teardownConnection, h]
    rfl
  | cleanupConn =>
    constructor
    · show ((teardownConnection t).2.count e) = 0
      rw [count_teardownConnection, h]
      rfl
    · show teardownEmits e { (teardownConnection t).1 with
        streamClosedGracefully := false, openSshMarkedConnected := false } = false
      rw [teardownEmits_mk_closed_flags]
      exact teardownConnection_clears _ _

theorem runTeardownOp_progress (t : TransportState) (op : TeardownOp) (e : TeardownEffect) :
    (runTeardownOp t op = (t, [])) ∨ teardownEmits e (runTeardownOp t op).1 = false := by
  cases op with
  | close =>
    by_cases hcl : t.isCleanedUp
    · left
      simp [runTeardownOp, cleanup, hcl]
    · right
      show teardownEmits e (cleanup t).1 = false
      rw [cleanup, if_neg hcl]
      exact teardownConnection_clears _ _
  | teardownDirect =>
    right
    exact teardownConnection_clears t e
  | cleanupConn =>
    right
    show teardownEmits e { (teardownConnection t).1 with
      streamClosedGracefully := false, openSshMarkedConnected := false } = false
    rw [teardownEmits_mk_closed_flags]
    exact teardownConnection_clears _ _

theorem runTeardownOp_live_stream (t : TransportState) (op : TeardownOp)
    (hLive : t.stream = true) (hNotCleaned : t.isCleanedUp = false) :
    (runTeardownOp t op).2.count TeardownEffect.streamClosed = 1
    ∧ teardownEmits TeardownEffect.streamClosed (runTeardownOp t op).1 = false := by
  have hcl : ¬ (t.isCleanedUp = true) := by simp [hNotCleaned]
  cases op with
  | close =>
    constructor
    · show (cleanup t).2.count TeardownEffect.streamClosed = 1
      rw [cleanup, if_neg hcl, count_teardownConnection, teardownEmits_mk_cleaned]
      simp [teardownEmits, hLive]
    · show teardownEmits TeardownEffect.streamClosed (cleanup t).1 = false
      rw [cleanup, if_neg hcl]
      exact teardownConnection_clears _ _
  | teardownDirect =>
    refine ⟨?_, teardownConnection_clears _ _⟩
    rw [show (runTeardownOp t TeardownOp.teardownDirect).2 = (teardownConnection t).2 from rfl,
      count_teardownConnection]
    simp [teardownEmits, hLive]
  | cleanupConn =>
    constructor
    · show ((teardownConnection t).2.count TeardownEffect.streamClosed) = 1
      rw [count_teardownConnection]
      simp [teardownEmits, hLive]
    · show teardownEmits TeardownEffect.streamClosed { (teardownConnection t).1 with
        streamClosedGracefully := false, openSshMarkedConnected := false } = false
      rw [teardownEmits_mk_closed_flags]
      exact teardownConnection_clears _ _

theorem runTeardownOps_dead (e : TeardownEffect) (t : TransportState) (ops : List TeardownOp)
    (h : teardownEmits e t = false) :
    (runTeardownOps t ops).2.count e = 0
    ∧ teardownEmits e (runTeardownOps t ops).1 = false := by
  induction ops generalizing t with
  | nil => exact ⟨rfl, h⟩
  | cons op ops ih =>
    obtain ⟨h1, h2⟩ := runTeardownOp_dead t op e h
    obtain ⟨h3, h4⟩ := ih _ h2
    refine ⟨?_, h4⟩
    show ((runTeardownOp t op).2 ++ (runTeardownOps (runTeardownOp t op).1 ops).2).count e = 0
    rw [List.count_append, h1, h3]

theorem runTeardownOps_count_le (e : TeardownEffect) (t : TransportState)
    (ops : List TeardownOp) : (runTeardownOps t ops).2.count e ≤ 1 := by
  induction ops generalizing t with
  | nil => simp [runTeardownOps]
  | cons op ops ih =>
    show ((runTeardownOp t op).2 ++ (runTeardownOps (runTeardownOp t op).1 ops).2).count e ≤ 1
    rw [List.count_append]
    rcases runTeardownOp_progress t op e with hsame | hdead
    · rw [hsame]
      simpa using ih t
    · have hz := (runTeardownOps_dead e _ ops hdead).1
      rw [hz]
      have := runTeardownOp_count_le t op e
      omega

end TeardownLemmas

/-- C7.  Idempotent teardown: a second `cleanup` (the body of `close()`) after any first
one changes nothing and emits no effects; from a live session (stream held, not cleaned
up), any non-empty sequence of close/error/exit teardown entry points closes the stream
handle exactly once; and over any sequence whatsoever from any state, each release effect
(stream close, client end, process kill, timer clear) happens at most once. -/
theorem close_idempotent_teardown (t : TransportState) (op0 : TeardownOp)
    (ops : List TeardownOp) (hLive : t.stream = true) (hNotCleaned : t.isCleanedUp = false) :
    cleanup (cleanup t).1 = ((cleanup t).1, [])
    ∧ (runTeardownOps t (op0 :: ops)).2.count TeardownEffect.streamClosed = 1
    ∧ (∀ t' ops' e, (runTeardownOps t' ops').2.count e ≤ 1) := by
  refine ⟨cleanup_cleanup t, ?_, fun t' ops' e => runTeardownOps_count_le e t' ops'⟩
  obtain ⟨h1, h2⟩ := runTeardownOp_live_stream t op0 hLive hNotCleaned
  have h3 := (runTeardownOps_dead _ _ ops h2).1
  show ((runTeardownOp t op0).2
      ++ (runTeardownOps (runTeardownOp t op0).1 ops).2).count TeardownEffect.streamClosed = 1
  rw [List.count_append, h1, h3]

/-- Witness for `close_idempotent_teardown`: a live SSH-stream session closed twice. -/
theorem close_idempotent_teardown_witness :
    (cleanup (cleanup liveTransport).1 = ((cleanup liveTransport).1, []))
    ∧ (runTeardownOps liveTransport
        [TeardownOp.close, TeardownOp.close]).2.count TeardownEffect.streamClosed = 1 := by
  have h := close_idempotent_teardown liveTransport
    TeardownOp.close [TeardownOp.close] rfl rfl
  exact ⟨h.1, h.2.1⟩


end TerminaX

namespace TerminaX

/-- C9.  Shell-close semantics.  For the SSH shell stream: exit code 0 or no code at all
is a clean exit — status Disconnected with exit code 0 and the close event fires 0 — and
any other code is Error with that code recorded and the close event fires 1.  For the
external ssh process (whose close event, per the child-process contract assumed in
`henv`, always carries a code or a signal): code 0 is a clean exit; any other code is
Error with that code recorded, and a signal-terminated close (no code) is Error with the
signal recorded; both fire the close event with 1. -/
theorem shell_close_semantics (code pcode : Option Nat) (signal : Option (List Char))
    (henv : pcode = none → signal ≠ none) :
    ((code = none ∨ code = some 0) →
      (onStreamClose code).statusSet = some ConnectionStatus.disconnected
      ∧ (onStreamClose code).exitCodeSet = some 0
      ∧ (onStreamClose code).closeFired = some 0)
    ∧ (∀ c, code = some c → c ≠ 0 →
      (onStreamClose code).statusSet = some ConnectionStatus.error
      ∧ (onStreamClose code).exitCodeSet = some c
      ∧ (onStreamClose code).errorRecorded = some ("Exit code: ".data ++ Nat.toDigits 10 c)
      ∧ (onStreamClose code).closeFired = some 1)
    ∧ (pcode = some 0 →
      (onOpenSshProcessClose false pcode signal).statusSet = some ConnectionStatus.disconnected
      ∧ (onOpenSshProcessClose false pcode signal).exitCodeSet = some 0
      ∧ (onOpenSshProcessClose false pcode signal).closeFired = some 0)
    ∧ (∀ c, pcode = some c → c ≠ 0 →
      (onOpenSshProcessClose false pcode signal).statusSet = some ConnectionStatus.error
      ∧ (onOpenSshProcessClose false pcode signal).exitCodeSet = some c
      ∧ (onOpenSshProcessClose false pcode signal).closeFired = some 1)
    ∧ (pcode = none → ∃ s, signal = some s
      ∧ (onOpenSshProcessClose false pcode signal).statusSet = some ConnectionStatus.error
      ∧ (onOpenSshProcessClose false pcode signal).errorRecorded = some ("signal: ".data ++ s)
      ∧ (onOpenSshProcessClose false pcode signal).closeFired = some 1) := by
  refine ⟨?_, ?_, ?_, ?_, ?_⟩
  · rintro (h | h) <;> simp [onStreamClose, h]
  · rintro c rfl hc
    simp [onStreamClose, hc]
  · intro h
    simp [onOpenSshProcessClose, h]
  · rintro c rfl hc
    have : ¬ (some c = some 0) := by simp [hc]
    cases signal <;> simp [onOpenSshProcessClose, this]
  · rintro rfl
    rcases hs : signal with _ | s
    · exact absurd hs (henv rfl)
    · exact ⟨s, rfl, by simp [onOpenSshProcessClose]⟩

/-- Witness for `shell_close_semantics`: a signal-terminated external ssh process and a
non-zero stream exit code. -/
theorem shell_close_semantics_witness :
    ((onStreamClose (some 127)).statusSet = some ConnectionStatus.error
      ∧ (onStreamClose (some 127)).closeFired = some 1)
    ∧ ((onOpenSshProcessClose false none (some ("SIGKILL".data))).statusSet
        = some ConnectionStatus.error
      ∧ (onOpenSshProcessClose false none (some ("SIGKILL".data))).errorRecorded
        = some ("signal: SIGKILL".data)
      ∧ (onOpenSshProcessClose false none (some ("SIGKILL".data))).closeFired = some 1) := by
  have h := shell_close_semantics (some 127) none (some ("SIGKILL".data)) (by simp)
  obtain ⟨s, hs, h1, h2, h3⟩ := h.2.2.2.2 rfl
  have h4 := h.2.1 127 rfl (by decide)
  cases hs
  exact ⟨⟨h4.1, h4.2.2.2⟩, h1, by simpa using h2, h3⟩

end TerminaX

namespace TerminaX

/-- C4.  Health probe outcome: a probe that passes the single-flight/disposed guard first
writes a Checking state preserving the previous consecutiveFailures counter, and then, on
probe success, writes Healthy with the measured latency and consecutiveFailures reset to
0, while on probe failure it writes Unhealthy with consecutiveFailures exactly one more
than the pre-probe value and the classified error message recorded. -/
theorem checkHost_probe_outcome (st : HealthMgrState) (host : HostCfg)
    (probe : Except (List Char) Nat) (now : Nat)
    (hNotActive : st.activeChecks.contains host.id = false)
    (hNotDisposed : st.disposed = false) :
    ((checkHost st host probe now).writes.head?.map
        (fun w => (w.1, w.2.status, w.2.consecutiveFailures))
      = some (host.id, HostHealthStatus.checking,
          ((mapGet st.states host.id).map (·.consecutiveFailures)).getD 0))
    ∧ (∀ latency, probe = Except.ok latency →
        mapGet (checkHost st host probe now).state.states host.id
          = some { hostId := host.id, status := HostHealthStatus.healthy,
                   checkedAt := some now, latencyMs := some latency, error := none,
                   consecutiveFailures := 0 })
    ∧ (∀ emsg, probe = Except.error emsg →
        mapGet (checkHost st host probe now).state.states host.id
          = some { hostId := host.id, status := HostHealthStatus.unhealthy,
                   checkedAt := some now, latencyMs := none,
                   error := some (normalizeHealthError emsg host),
                   consecutiveFailures :=
                     ((mapGet st.states host.id).map (·.consecutiveFailures)).getD 0 + 1 }) := by
  have hguard : ¬ ((st.activeChecks.contains host.id || st.disposed) = true) := by
    rw [hNotActive, hNotDisposed]
    simp
  refine ⟨?_, ?_, ?_⟩
  · rw [checkHost, if_neg hguard]
    rfl
  · rintro latency rfl
    rw [checkHost, if_neg hguard]
    exact mapGet_mapSet_self _ _ _
  · rintro emsg rfl
    rw [checkHost, if_neg hguard]
    exact mapGet_mapSet_self _ _ _

/-- Witness for `checkHost_probe_outcome`: the closed-port scenario — host h1 with health
Unknown (no cached entry), probed with a refused connection: Unknown → Checking →
Unhealthy with consecutiveFailures going from 0 to 1. -/
theorem checkHost_probe_outcome_witness :
    ((checkHost idleHealthState localHost1
        (Except.error ("connect ECONNREFUSED 127.0.0.1:54321".data)) 5).writes.head?.map
        (fun w => (w.1, w.2.status, w.2.consecutiveFailures))
      = some ("h1", HostHealthStatus.checking, 0))
    ∧ (mapGet (checkHost idleHealthState localHost1
        (Except.error ("connect ECONNREFUSED 127.0.0.1:54321".data)) 5).state.states ("h1")
      = some { hostId := "h1", status := HostHealthStatus.unhealthy, checkedAt := some 5,
               latencyMs := none,
               error := some (normalizeHealthError
                 ("connect ECONNREFUSED 127.0.0.1:54321".data) localHost1),
               consecutiveFailures := 1 }) := by
  have h := checkHost_probe_outcome idleHealthState localHost1
    (Except.error ("connect ECONNREFUSED 127.0.0.1:54321".data)) 5 rfl rfl
  exact ⟨h.1, (h.2.2 _ rfl)⟩

/-- C5.  Single-flight probing: a probe request for a host whose check is already
outstanding is dropped — manager state unchanged, no health writes, no events, no probe
connection opened; and a fleet-wide `checkAllNow` issued while one is already running is
a no-op — state unchanged, no events, zero probes opened. -/
theorem single_flight_probing (st : HealthMgrState) (host : HostCfg)
    (probe : Except (List Char) Nat) (now : Nat)
    (hActive : st.activeChecks.contains host.id = true)
    (st2 : HealthMgrState) (enabled : Bool) (hosts : List HostCfg)
    (probes : String → Except (List Char) Nat) (now2 : Nat)
    (hRunning : st2.runningCheckAll = true) :
    checkHost st host probe now
        = { state := st, writes := [], events := [], probeOpened := false }
    ∧ checkAllNow st2 enabled hosts probes now2
        = { state := st2, events := [], probesOpened := 0 } := by
  constructor
  · rw [checkHost, if_pos (show (st.activeChecks.contains host.id || st.disposed) = true by
      rw [hActive]
      rfl)]
  · rw [checkAllNow, if_pos (show
      (st2.runningCheckAll || st2.disposed || !enabled) = true by
      rw [hRunning]
      rfl)]

/-- Witness for `single_flight_probing`: duplicate probe for h1 while h1's check is
outstanding, and a checkAll while one is running. -/
theorem single_flight_probing_witness :
    checkHost outstandingProbeState localHost1 (Except.ok 3) 7
        = { state := outstandingProbeState, writes := [], events := [], probeOpened := false }
    ∧ checkAllNow runningCheckAllState true [localHost1]
        (fun _ => Except.ok 3) 7
        = { state := runningCheckAllState, events := [], probesOpened := 0 } :=
  single_flight_probing outstandingProbeState localHost1 (Except.ok 3) 7 (by decide)
    runningCheckAllState true [localHost1] (fun _ => Except.ok 3) 7 rfl

end TerminaX

namespace TerminaX

theorem appendOutput_drop (t c : List Char) :
    appendOutput (t.drop (t.length - MAX_OUTPUT_BUFFER)) c
      = (t ++ c).drop ((t ++ c).length - MAX_OUTPUT_BUFFER) := by
  have hk : t.length - MAX_OUTPUT_BUFFER ≤ t.length := Nat.sub_le _ _
  have hsplit : (t.drop (t.length - MAX_OUTPUT_BUFFER)) ++ c
      = (t ++ c).drop (t.length - MAX_OUTPUT_BUFFER) :=
    (List.drop_append_of_le_length hk).symm
  show (if ((t.drop (t.length - MAX_OUTPUT_BUFFER)) ++ c).length > MAX_OUTPUT_BUFFER then
      ((t.drop (t.length - MAX_OUTPUT_BUFFER)) ++ c).drop
        (((t.drop (t.length - MAX_OUTPUT_BUFFER)) ++ c).length - MAX_OUTPUT_BUFFER)
    else (t.drop (t.length - MAX_OUTPUT_BUFFER)) ++ c)
      = (t ++ c).drop ((t ++ c).length - MAX_OUTPUT_BUFFER)
  rw [hsplit, List.length_drop]
  by_cases h : (t ++ c).length - (t.length - MAX_OUTPUT_BUFFER) > MAX_OUTPUT_BUFFER
  · rw [if_pos h, List.drop_drop]
    have he : (t.length - MAX_OUTPUT_BUFFER)
        + ((t ++ c).length - (t.length - MAX_OUTPUT_BUFFER) - MAX_OUTPUT_BUFFER)
        = (t ++ c).length - MAX_OUTPUT_BUFFER := by
      simp only [List.length_append] at h ⊢
      omega
    rw [he]
  · rw [if_neg h]
    have he : t.length - MAX_OUTPUT_BUFFER = (t ++ c).length - MAX_OUTPUT_BUFFER := by
      simp only [List.length_append] at h ⊢
      omega
    rw [he]

theorem foldl_appendOutput (rest : List (List Char)) (t : List Char) :
    rest.foldl appendOutput (t.drop (t.length - MAX_OUTPUT_BUFFER))
      = (t ++ rest.flatten).drop ((t ++ rest.flatten).length - MAX_OUTPUT_BUFFER) := by
  induction rest generalizing t with
  | nil => rw [List.foldl_nil, List.flatten_nil, List.append_nil]
  | cons c rest ih =>
    rw [List.foldl_cons, appendOutput_drop, ih (t ++ c), List.flatten_cons,
      ← List.append_assoc]

/-- C10.  Bounded output buffer: after any sequence of output appends starting from the
empty output, the retained output is exactly the trailing
`min (total length) MAX_OUTPUT_BUFFER` characters of the concatenation of all chunks
received so far — in particular it is a suffix of that concatenation and never exceeds
250000 characters. -/
theorem outputAfter_bounded_suffix (chunks : List (List Char)) :
    outputAfter chunks
        = (chunks.flatten).drop ((chunks.flatten).length - MAX_OUTPUT_BUFFER)
    ∧ (outputAfter chunks).length = min (chunks.flatten).length MAX_OUTPUT_BUFFER
    ∧ (outputAfter chunks).length ≤ 250000
    ∧ outputAfter chunks <:+ chunks.flatten := by
  have hM : MAX_OUTPUT_BUFFER = 250000 := rfl
  have h : outputAfter chunks
      = (chunks.flatten).drop ((chunks.flatten).length - MAX_OUTPUT_BUFFER) := by
    have h0 := foldl_appendOutput chunks []
    rw [List.drop_nil, List.nil_append] at h0
    exact h0
  refine ⟨h, ?_, ?_, ?_⟩
  · rw [h, List.length_drop]
    omega
  · rw [h, List.length_drop]
    omega
  · rw [h]
    exact List.drop_suffix _ _

end TerminaX


namespace TerminaX

theorem utf8Step_emit_length {bs : List Nat} {c : Nat} {rest : List Nat}
    (h : utf8Step bs = Utf8Step.emit c rest) : rest.length < bs.length := by
  cases bs with
  | nil => exact absurd h (by simp [utf8Step])
  | cons b tail =>
    unfold utf8Step at h
    repeat' split at h
    all_goals simp_all
    all_goals omega

theorem utf8Step_invalid_length {bs : List Nat} {rest : List Nat}
    (h : utf8Step bs = Utf8Step.invalid rest) : rest.length < bs.length := by
  cases bs with
  | nil => exact absurd h (by simp [utf8Step])
  | cons b tail =>
    unfold utf8Step at h
    repeat' split at h
    all_goals simp_all

set_option maxHeartbeats 3200000 in
theorem utf8Step_emit_append {bs : List Nat} {c : Nat} {rest : List Nat}
    (h : utf8Step bs = Utf8Step.emit c rest) (ys : List Nat) :
    utf8Step (bs ++ ys) = Utf8Step.emit c (rest ++ ys) := by
  cases bs with
  | nil => exact absurd h (by simp [utf8Step])
  | cons b tail =>
    unfold utf8Step at h ⊢
    repeat' split at h
    all_goals simp_all
    all_goals (repeat' split)
    all_goals simp_all
    all_goals omega

set_option maxHeartbeats 3200000 in
theorem utf8Step_invalid_append {bs : List Nat} {rest : List Nat}
    (h : utf8Step bs = Utf8Step.invalid rest) (ys : List Nat) :
    utf8Step (bs ++ ys) = Utf8Step.invalid (rest ++ ys) := by
  cases bs with
  | nil => exact absurd h (by simp [utf8Step])
  | cons b tail =>
    unfold utf8Step at h ⊢
    repeat' split at h
    all_goals simp_all
    all_goals (repeat' split)
    all_goals simp_all
    all_goals (try subst_vars)
    all_goals (try simp_all)
    all_goals omega

theorem utf8Step_empty_eq {bs : List Nat} (h : utf8Step bs = Utf8Step.empty) : bs = [] := by
  cases bs with
  | nil => rfl
  | cons b tail =>
    unfold utf8Step at h
    repeat' split at h
    all_goals simp_all

theorem decodeChunkFuel_congr (f : Nat) : ∀ (g : Nat) (bs : List Nat), bs.length ≤ f →
    bs.length ≤ g → decodeChunkFuel f bs = decodeChunkFuel g bs := by
  induction f with
  | zero =>
    intro g bs hf _
    cases bs with
    | nil => cases g <;> rfl
    | cons b tail => simp at hf
  | succ f ih =>
    intro g bs hf hg
    cases g with
    | zero =>
      cases bs with
      | nil => rfl
      | cons b tail => simp at hg
    | succ g =>
      cases bs with
      | nil => rfl
      | cons b tail =>
        simp only [decodeChunkFuel]
        cases hstep : utf8Step (b :: tail) with
        | empty => rfl
        | needMore => rfl
        | emit c rest =>
          have hl := utf8Step_emit_length hstep
          simp only [List.length_cons] at hf hg
          simp only [List.length_cons] at hl
          dsimp only
          rw [ih g rest (by omega) (by omega)]
        | invalid rest =>
          have hl := utf8Step_invalid_length hstep
          simp only [List.length_cons] at hf hg
          simp only [List.length_cons] at hl
          dsimp only
          rw [ih g rest (by omega) (by omega)]

theorem utf8DecodeFuel_congr (f : Nat) : ∀ (g : Nat) (bs : List Nat), bs.length ≤ f →
    bs.length ≤ g → utf8DecodeFuel f bs = utf8DecodeFuel g bs := by
  induction f with
  | zero =>
    intro g bs hf _
    cases bs with
    | nil => cases g <;> rfl
    | cons b tail => simp at hf
  | succ f ih =>
    intro g bs hf hg
    cases g with
    | zero =>
      cases bs with
      | nil => rfl
      | cons b tail => simp at hg
    | succ g =>
      cases bs with
      | nil => rfl
      | cons b tail =>
        simp only [utf8DecodeFuel]
        cases hstep : utf8Step (b :: tail) with
        | empty => rfl
        | needMore => rfl
        | emit c rest =>
          have hl := utf8Step_emit_length hstep
          simp only [List.length_cons] at hf hg hl
          dsimp only
          rw [ih g rest (by omega) (by omega)]
        | invalid rest =>
          have hl := utf8Step_invalid_length hstep
          simp only [List.length_cons] at hf hg hl
          dsimp only
          rw [ih g rest (by omega) (by omega)]

theorem utf8ValidFuel_congr (f : Nat) : ∀ (g : Nat) (bs : List Nat), bs.length ≤ f →
    bs.length ≤ g → utf8ValidFuel f bs = utf8ValidFuel g bs := by
  induction f with
  | zero =>
    intro g bs hf _
    cases bs with
    | nil => cases g <;> rfl
    | cons b tail => simp at hf
  | succ f ih =>
    intro g bs hf hg
    cases g with
    | zero =>
      cases bs with
      | nil => rfl
      | cons b tail => simp at hg
    | succ g =>
      cases bs with
      | nil => rfl
      | cons b tail =>
        simp only [utf8ValidFuel]
        cases hstep : utf8Step (b :: tail) with
        | empty => rfl
        | needMore => rfl
        | invalid rest => rfl
        | emit c rest =>
          have hl := utf8Step_emit_length hstep
          simp only [List.length_cons] at hf hg hl
          dsimp only
          rw [ih g rest (by omega) (by omega)]

theorem decodeChunk_step (bs : List Nat) :
    decodeChunk bs
      = (match utf8Step bs with
        | Utf8Step.empty => ([], [])
        | Utf8Step.emit c rest => (c :: (decodeChunk rest).1, (decodeChunk rest).2)
        | Utf8Step.needMore => ([], bs)
        | Utf8Step.invalid rest =>
          (replacementChar :: (decodeChunk rest).1, (decodeChunk rest).2)) := by
  cases bs with
  | nil => rfl
  | cons b tail =>
    show decodeChunkFuel (tail.length + 1) (b :: tail) = _
    simp only [decodeChunkFuel]
    cases hstep : utf8Step (b :: tail) with
    | empty => rfl
    | needMore => rfl
    | emit c rest =>
      have hl := utf8Step_emit_length hstep
      simp only [List.length_cons] at hl
      dsimp only [decodeChunk]
      rw [decodeChunkFuel_congr tail.length rest.length rest (by omega) (le_refl _)]
    | invalid rest =>
      have hl := utf8Step_invalid_length hstep
      simp only [List.length_cons] at hl
      dsimp only [decodeChunk]
      rw [decodeChunkFuel_congr tail.length rest.length rest (by omega) (le_refl _)]

theorem utf8DecodeAll_step (bs : List Nat) :
    utf8DecodeAll bs
      = (match utf8Step bs with
        | Utf8Step.empty => []
        | Utf8Step.emit c rest => c :: utf8DecodeAll rest
        | Utf8Step.needMore => [replacementChar]
        | Utf8Step.invalid rest => replacementChar :: utf8DecodeAll rest) := by
  cases bs with
  | nil => rfl
  | cons b tail =>
    show utf8DecodeFuel (tail.length + 1) (b :: tail) = _
    simp only [utf8DecodeFuel]
    cases hstep : utf8Step (b :: tail) with
    | empty => rfl
    | needMore => rfl
    | emit c rest =>
      have hl := utf8Step_emit_length hstep
      simp only [List.length_cons] at hl
      dsimp only [utf8DecodeAll]
      rw [utf8DecodeFuel_congr tail.length rest.length rest (by omega) (le_refl _)]
    | invalid rest =>
      have hl := utf8Step_invalid_length hstep
      simp only [List.length_cons] at hl
      dsimp only [utf8DecodeAll]
      rw [utf8DecodeFuel_congr tail.length rest.length rest (by omega) (le_refl _)]

theorem utf8ValidB_step (bs : List Nat) :
    utf8ValidB bs
      = (match utf8Step bs with
        | Utf8Step.empty => true
        | Utf8Step.emit _ rest => utf8ValidB rest
        | Utf8Step.needMore => false
        | Utf8Step.invalid _ => false) := by
  cases bs with
  | nil => rfl
  | cons b tail =>
    show utf8ValidFuel (tail.length + 1) (b :: tail) = _
    simp only [utf8ValidFuel]
    cases hstep : utf8Step (b :: tail) with
    | empty => rfl
    | needMore => rfl
    | invalid rest => rfl
    | emit c rest =>
      have hl := utf8Step_emit_length hstep
      simp only [List.length_cons] at hl
      dsimp only [utf8ValidB]
      rw [utf8ValidFuel_congr tail.length rest.length rest (by omega) (le_refl _)]

theorem decodeChunk_of_valid : ∀ (n : Nat) (bs : List Nat), bs.length ≤ n →
    utf8ValidB bs = true → decodeChunk bs = (utf8DecodeAll bs, []) := by
  intro n
  induction n with
  | zero =>
    intro bs h _
    cases bs with
    | nil => rfl
    | cons _ _ => simp at h
  | succ n ih =>
    intro bs h hv
    cases hstep : utf8Step bs with
    | empty =>
      have hbs := utf8Step_empty_eq hstep
      subst hbs
      rfl
    | needMore =>
      rw [utf8ValidB_step, hstep] at hv
      simp at hv
    | invalid rest =>
      rw [utf8ValidB_step, hstep] at hv
      simp at hv
    | emit c rest =>
      have hl : rest.length ≤ n := by
        have := utf8Step_emit_length hstep
        omega
      have hv2 : utf8ValidB rest = true := by
        rw [utf8ValidB_step, hstep] at hv
        exact hv
      rw [decodeChunk_step, utf8DecodeAll_step, hstep]
      show (c :: (decodeChunk rest).1, (decodeChunk rest).2) = (c :: utf8DecodeAll rest, [])
      rw [ih rest hl hv2]

theorem decodeChunk_append : ∀ (n : Nat) (F d : List Nat), F.length ≤ n →
    decodeChunk (F ++ d)
      = ((decodeChunk F).1 ++ (decodeChunk ((decodeChunk F).2 ++ d)).1,
         (decodeChunk ((decodeChunk F).2 ++ d)).2) := by
  intro n
  induction n with
  | zero =>
    intro F d hF
    cases F with
    | nil =>
      show decodeChunk d = _
      rfl
    | cons _ _ => simp at hF
  | succ n ih =>
    intro F d hF
    cases hstep : utf8Step F with
    | empty =>
      have hbs := utf8Step_empty_eq hstep
      subst hbs
      show decodeChunk d = _
      rfl
    | needMore =>
      rw [decodeChunk_step F, hstep]
      rfl
    | emit c rest =>
      have hstep2 := utf8Step_emit_append hstep d
      have hl : rest.length ≤ n := by
        have := utf8Step_emit_length hstep
        omega
      rw [decodeChunk_step F, decodeChunk_step (F ++ d), hstep, hstep2]
      show (c :: (decodeChunk (rest ++ d)).1, (decodeChunk (rest ++ d)).2)
        = ((c :: (decodeChunk rest).1) ++ (decodeChunk ((decodeChunk rest).2 ++ d)).1,
           (decodeChunk ((decodeChunk rest).2 ++ d)).2)
      rw [ih rest d hl]
      rfl
    | invalid rest =>
      have hstep2 := utf8Step_invalid_append hstep d
      have hl : rest.length ≤ n := by
        have := utf8Step_invalid_length hstep
        omega
      rw [decodeChunk_step F, decodeChunk_step (F ++ d), hstep, hstep2]
      show (replacementChar :: (decodeChunk (rest ++ d)).1, (decodeChunk (rest ++ d)).2)
        = ((replacementChar :: (decodeChunk rest).1)
            ++ (decodeChunk ((decodeChunk rest).2 ++ d)).1,
           (decodeChunk ((decodeChunk rest).2 ++ d)).2)
      rw [ih rest d hl]
      rfl

theorem decodeChunk_pending_pure : ∀ (n : Nat) (bs : List Nat), bs.length ≤ n →
    decodeChunk ((decodeChunk bs).2) = ([], (decodeChunk bs).2) := by
  intro n
  induction n with
  | zero =>
    intro bs h
    cases bs with
    | nil => rfl
    | cons _ _ => simp at h
  | succ n ih =>
    intro bs h
    cases hstep : utf8Step bs with
    | empty =>
      have hbs := utf8Step_empty_eq hstep
      subst hbs
      rfl
    | needMore =>
      rw [decodeChunk_step bs, hstep]
      show decodeChunk bs = ([], bs)
      rw [decodeChunk_step bs, hstep]
    | emit c rest =>
      have hl : rest.length ≤ n := by
        have := utf8Step_emit_length hstep
        omega
      rw [decodeChunk_step bs, hstep]
      exact ih rest hl
    | invalid rest =>
      have hl : rest.length ≤ n := by
        have := utf8Step_invalid_length hstep
        omega
      rw [decodeChunk_step bs, hstep]
      exact ih rest hl

theorem emit_flatten (l : List Nat) :
    (if 0 < l.length then [l] else []).flatten = l := by
  cases l <;> simp

theorem flushDecoder_empty (d : StreamDecoder) (h : d.pending = []) : flushDecoder d = [] := by
  simp [flushDecoder, decoderEnd, h]

theorem foldl_emit_spec : ∀ (datas : List (List Nat)) (P : List Nat) (O : List (List Nat)),
    decodeChunk P = ([], P) →
    ((datas.foldl (fun acc data =>
        let e := emitDecodedChunk acc.1 data
        (e.1, acc.2 ++ e.2)) (⟨P⟩, O)).1.pending
      = (decodeChunk (P ++ datas.flatten)).2)
    ∧ (((datas.foldl (fun acc data =>
        let e := emitDecodedChunk acc.1 data
        (e.1, acc.2 ++ e.2)) (⟨P⟩, O)).2).flatten
      = O.flatten ++ (decodeChunk (P ++ datas.flatten)).1) := by
  intro datas
  induction datas with
  | nil =>
    intro P O hP
    constructor
    · show P = (decodeChunk (P ++ [])).2
      rw [List.append_nil, hP]
    · show O.flatten = O.flatten ++ (decodeChunk (P ++ [])).1
      rw [List.append_nil, hP, List.append_nil]
  | cons d rest ih =>
    intro P O hP
    have happ := decodeChunk_append (P ++ d).length (P ++ d) rest.flatten (le_refl _)
    have hpure := decodeChunk_pending_pure (P ++ d).length (P ++ d) (le_refl _)
    obtain ⟨ih1, ih2⟩ := ih ((decodeChunk (P ++ d)).2)
      (O ++ (if 0 < (decodeChunk (P ++ d)).1.length then [(decodeChunk (P ++ d)).1] else []))
      hpure
    have hassoc : P ++ (d :: rest).flatten = (P ++ d) ++ rest.flatten := by
      rw [List.flatten_cons, List.append_assoc]
    constructor
    · show ((rest.foldl (fun acc data =>
          let e := emitDecodedChunk acc.1 data
          (e.1, acc.2 ++ e.2))
          (⟨(decodeChunk (P ++ d)).2⟩,
           O ++ (if 0 < (decodeChunk (P ++ d)).1.length
                 then [(decodeChunk (P ++ d)).1] else []))).1.pending)
        = (decodeChunk (P ++ (d :: rest).flatten)).2
      rw [ih1, hassoc, happ]
    · show (((rest.foldl (fun acc data =>
          let e := emitDecodedChunk acc.1 data
          (e.1, acc.2 ++ e.2))
          (⟨(decodeChunk (P ++ d)).2⟩,
           O ++ (if 0 < (decodeChunk (P ++ d)).1.length
                 then [(decodeChunk (P ++ d)).1] else []))).2).flatten)
        = O.flatten ++ (decodeChunk (P ++ (d :: rest).flatten)).1
      rw [ih2, hassoc, happ]
      rw [List.flatten_append, emit_flatten, List.append_assoc]

/-- C8.  Decoder round-trip: for every byte stream forming valid UTF-8 text, feeding it
as any series of chunks through the session's persistent stream decoder
(`emitDecodedChunk` per chunk, `flushDecoder` at stream close) emits exactly the text
obtained by decoding the whole stream in one write — split multi-byte characters are
reproduced intact and nothing is lost at close. -/
theorem sessionDecode_roundtrip (datas : List (List Nat))
    (h : utf8ValidB datas.flatten = true) :
    sessionDecode datas = utf8DecodeAll datas.flatten := by
  obtain ⟨h1, h2⟩ := foldl_emit_spec datas [] [] rfl
  have hval := decodeChunk_of_valid datas.flatten.length datas.flatten (le_refl _) h
  rw [List.nil_append] at h1 h2
  rw [hval] at h1 h2
  show (((datas.foldl (fun acc data =>
      let e := emitDecodedChunk acc.1 data
      (e.1, acc.2 ++ e.2)) (⟨[]⟩, [])).2
    ++ flushDecoder ((datas.foldl (fun acc data =>
      let e := emitDecodedChunk acc.1 data
      (e.1, acc.2 ++ e.2)) (⟨[]⟩, [])).1)).flatten)
    = utf8DecodeAll datas.flatten
  rw [List.flatten_append, flushDecoder_empty _ h1, h2]
  simp

/-- Witness for `sessionDecode_roundtrip`: the two-byte character U+00E9 (C3 A9) split
across two writes decodes to the same single code point as in one write. -/
theorem sessionDecode_roundtrip_witness :
    utf8ValidB ([[0xC3], [0xA9]] : List (List Nat)).flatten = true
    ∧ sessionDecode [[0xC3], [0xA9]] = utf8DecodeAll ([[0xC3], [0xA9]] : List (List Nat)).flatten
    ∧ sessionDecode [[0xC3], [0xA9]] = [0xE9] :=
  ⟨by decide, sessionDecode_roundtrip [[0xC3], [0xA9]] (by decide), by decide⟩

end TerminaX
